import Mathlib

/-
  Shallow embedding of the QSys member filesystem provider
  (src/src/filesystems/qsys/QSysFs.ts) of the vscode-ibmi repository:
  the path/URI codec, the stat cache, and the filesystem operations
  stat / readFile / writeFile / rename, together with the
  updateMemberSupport lifecycle recomputation.

  External collaborators (the vscode API, the Node querystring module,
  the Remote Content Gateway reachable through instance.getContent() /
  instance.getConnection()) are modelled by explicit structures and
  oracle functions; each operation additionally reports the list of
  gateway invocations it performed, so that claims about "no second
  gateway query" or "the gateway is never invoked" are statable.
-/

namespace QSysFs

/-- The vscode FileType values used by the provider (File and Directory). -/
inductive FileType where
  | File : FileType
  | Directory : FileType
deriving DecidableEq, Repr

/-- The vscode FilePermission values used by the provider (only Readonly). -/
inductive FilePermission where
  | Readonly : FilePermission
deriving DecidableEq, Repr

/-- The vscode FileStat record built by QSysFS.stat: ctime, mtime, size,
type, and an optional permissions flag. -/
structure FileStat where
  ctime : Nat
  mtime : Nat
  size : Nat
  type : FileType
  permissions : Option FilePermission
deriving DecidableEq, Repr

/-- A vscode Uri, reduced to the three components the provider reads:
scheme, path and query. -/
structure Uri where
  scheme : String
  path : String
  query : String
deriving DecidableEq, Repr

/-- String rendering of a Uri, as interpolated into the readFile error
message. -/
def Uri.render (u : Uri) : String :=
  u.scheme ++ ":" ++ u.path ++ (if u.query = "" then "" else "?" ++ u.query)

/-- Helper for the JavaScript String.split semantics on a single-character
separator: splits the character list at every separator, keeping empty
pieces (so a leading separator yields a leading empty piece and the empty
input yields one empty piece). -/
def jsSplitAux (sep : Char) : List Char → List Char → List (List Char)
  | [], acc => [acc.reverse]
  | c :: cs, acc =>
    if c = sep then acc.reverse :: jsSplitAux sep cs []
    else jsSplitAux sep cs (c :: acc)

/-- JavaScript String.split with a single-character separator. -/
def jsSplit (sep : Char) (s : String) : List String :=
  (jsSplitAux sep s.data []).map fun cs => String.mk cs

/-- JavaScript String.startsWith for the single prefix "/" used by
getUriFromPath: true when the first character is a slash. -/
def startsWithSlash (s : String) : Bool :=
  match s.data with
  | [] => false
  | c :: _ => c = '/'

/-- The QsysFsOptions record from typings: an optional readonly boolean. -/
structure QsysFsOptions where
  readonly : Option Bool
deriving DecidableEq, Repr

/-- Node querystring.stringify applied to a QsysFsOptions value (or to
undefined, when getUriFromPath receives no options): a defined boolean is
serialized as the key with "true"/"false", an undefined field is coerced
to the empty string, and stringify(undefined) is the empty query. -/
def stringifyOptions : Option QsysFsOptions → String
  | none => ""
  | some o =>
    match o.readonly with
    | some b => "readonly=" ++ (if b then "true" else "false")
    | none => "readonly="

/-- getUriFromPath from QSysFs.ts: paths starting with "/" get scheme
streamfile and are kept as is; other (QSYS) paths get scheme member and a
leading "/"; the options are serialized into the query string. -/
def getUriFromPath (path : String) (options : Option QsysFsOptions) : Uri :=
  let query := stringifyOptions options
  if startsWithSlash path then
    { scheme := "streamfile", path := path, query := query }
  else
    { scheme := "member", path := "/" ++ path, query := query }

/-- Node querystring.parse, reduced to the key/value pair list: the query
splits on ampersands and each piece splits at its first equals sign (a
piece without an equals sign gets the empty value). -/
def parseQueryPairs (q : String) : List (String × String) :=
  (jsSplit '&' q).map fun kv =>
    let cs := kv.data
    let k := cs.takeWhile fun c => c ≠ '='
    match cs.dropWhile fun c => c ≠ '=' with
    | [] => (String.mk k, "")
    | _ :: vs => (String.mk k, String.mk vs)

/-- The values bound to the readonly key in a query string. Node's parse
yields a single string when the key occurs once, an array when it occurs
several times, and undefined when it is absent; the strict comparison
with "true" in parseFSOptions is therefore true exactly when this list is
the singleton list containing "true". -/
def readonlyValues (q : String) : List String :=
  (parseQueryPairs q).filterMap fun p =>
    if p.1 = "readonly" then some p.2 else none

/-- parseFSOptions from QSysFs.ts: parses the query string and returns a
QsysFsOptions whose readonly field is the result of the strict comparison
of the readonly parameter with the string "true". -/
def parseFSOptions (uri : Uri) : QsysFsOptions :=
  { readonly := some (readonlyValues uri.query = ["true"] : Bool) }

/-- The source-date mode enum. Modelled from the spec: the
SourceDateHandler (not under src) keeps a process-wide mode enum taken
from the connection configuration. -/
inductive SourceDateMode where
  | edit : SourceDateMode
  | diff : SourceDateMode
deriving DecidableEq, Repr

/-- The connection configuration fields the provider reads: the global
readOnlyMode flag, the enableSourceDates request and the sourceDateMode. -/
structure Config where
  readOnlyMode : Bool
  enableSourceDates : Bool
  sourceDateMode : SourceDateMode
deriving DecidableEq, Repr

/-- getFilePermission from QSysFs.ts: Readonly when the global
configuration requests read-only mode or the identifier carries the
readonly option, nothing otherwise. -/
def getFilePermission (config : Option Config) (uri : Uri) : Option FilePermission :=
  let fsOptions := parseFSOptions uri
  if (config.map Config.readOnlyMode).getD false || fsOptions.readonly.getD false then
    some FilePermission.Readonly
  else
    none

/-- The connection object, reduced to what the provider reads: its
configuration, the sqlRunnerAvailable capability probe, and whether
getEncoding reports the invalid CCSID sentinel. The parserMemberPath
call is modelled as the identity on the canonical path (the spec leaves
structured parsing to the Remote Content Gateway given a path). -/
structure Connection where
  config : Option Config
  sqlRunnerAvailable : Bool
  encodingInvalid : Bool

/-- The attribute record returned by the gateway for a stat query. The
date parsing of Tools.parseAttrDate (not under src) is modelled from the
spec as yielding the creation and modification timestamps directly. -/
structure GatewayAttributes where
  createTime : Nat
  modifyTime : Nat
  dataSize : Nat
deriving DecidableEq, Repr

/-- The Remote Content Gateway (instance.getContent() plus the
ExtendedIBMiContent overlay), as oracles keyed by the canonical path:
getAttributes for stat, downloadMemberContent / uploadMemberContent for
plain transfer, and the WithDates variants used by the source-date
overlay. -/
structure ContentApi where
  getAttributes : String → Option GatewayAttributes
  downloadMemberContent : String → Option String
  downloadMemberContentWithDates : String → Option String

/-- The process-wide instance accessors the provider consults: the
current connection, the current content API, and the current
configuration (readOnlyMode is read through instance.getConfig()). -/
structure Env where
  connection : Option Connection
  content : Option ContentApi
  config : Option Config

/-- The stat cache. Modelled from the spec: FileStatCache (not under
src) maps a canonical path to cached metadata or the null negative
marker; get distinguishes a missing key from a stored null, set stores a
value or the null marker, clear removes one entry (or all when no path
is given). Entries are kept as an association list looked up by key. -/
structure FileStatCache where
  entries : List (String × Option FileStat)
deriving DecidableEq, Repr

/-- An empty stat cache. -/
def FileStatCache.empty : FileStatCache := ⟨[]⟩

/-- FileStatCache.get: the cached value for a path, where the outer
Option is presence of the key and the inner Option distinguishes
metadata from the negative marker. -/
def FileStatCache.get (c : FileStatCache) (path : String) : Option (Option FileStat) :=
  c.entries.lookup path

/-- FileStatCache.set: store metadata (or the null negative marker)
under a path. -/
def FileStatCache.set (c : FileStatCache) (path : String) (v : Option FileStat) : FileStatCache :=
  ⟨(path, v) :: c.entries⟩

/-- FileStatCache.clear on a single path: drop that entry. -/
def FileStatCache.clearPath (c : FileStatCache) (path : String) : FileStatCache :=
  ⟨c.entries.filter fun e => e.1 ≠ path⟩

/-- FileStatCache.clear with no argument: drop every entry. -/
def FileStatCache.clearAll (_ : FileStatCache) : FileStatCache := ⟨[]⟩

/-- The gateway and command invocations an operation can perform,
recorded in order so that retry and frame claims are statable. -/
inductive GatewayCall where
  | attrQuery (path : String) : GatewayCall
  | download (path : String) : GatewayCall
  | downloadWithDates (path : String) : GatewayCall
  | upload (path : String) (content : String) : GatewayCall
  | uploadWithDates (path : String) (content : String) : GatewayCall
  | reconnect : GatewayCall
deriving DecidableEq, Repr

/-- The SourceDateHandler state. Modelled from the spec: process-wide
enabled flag plus mode, driven by setEnabled and changeSourceDateMode. -/
structure SourceDateHandlerState where
  enabled : Bool
  mode : SourceDateMode
deriving DecidableEq, Repr

/-- The mutable state of the QSysFS provider: the stat cache, the
extendedMemberSupport flag, and the source-date handler state. -/
structure FsState where
  statCache : FileStatCache
  extendedMemberSupport : Bool
  sourceDateHandler : SourceDateHandlerState
deriving DecidableEq, Repr

/-- Severity of a user-visible notice (vscode showErrorMessage /
showWarningMessage / showInformationMessage). -/
inductive Severity where
  | error : Severity
  | warning : Severity
  | info : Severity
deriving DecidableEq, Repr

/-- A user-visible notice raised through the vscode window API. -/
structure Notice where
  severity : Severity
  message : String
deriving DecidableEq, Repr

/-- The advisory text raised when source dates are requested but the
session has no SQL runner. -/
def sqlUnavailableMessage : String :=
  "Source date support is enabled, but the remote system does not support SQL. Source date support will be disabled."

/-- The advisory text raised when the remote encoding is invalid. -/
def invalidCcsidMessage : String :=
  "Source date support is enabled, but CCSID is 65535. If you encounter problems with source date support, please disable it in the settings."

/-- QSysFS.updateMemberSupport: reset extendedMemberSupport to false;
when a connection exists and its configuration requests source dates,
either enable support (setting the handler mode, with a warning-level
notice if the encoding is invalid) when the SQL runner is available, or
raise an error-level notice and stay disabled when it is not; finally
propagate the support flag to the handler through setEnabled. Returns
the new state and the notices raised. -/
def updateMemberSupport (env : Env) (st : FsState) : FsState × List Notice :=
  match env.connection with
  | some conn =>
    match conn.config with
    | some cfg =>
      if cfg.enableSourceDates then
        if conn.sqlRunnerAvailable then
          ({ st with
              extendedMemberSupport := true,
              sourceDateHandler := { enabled := true, mode := cfg.sourceDateMode } },
            if conn.encodingInvalid then [⟨Severity.warning, invalidCcsidMessage⟩] else [])
        else
          ({ st with
              extendedMemberSupport := false,
              sourceDateHandler := { st.sourceDateHandler with enabled := false } },
            [⟨Severity.error, sqlUnavailableMessage⟩])
      else
        ({ st with
            extendedMemberSupport := false,
            sourceDateHandler := { st.sourceDateHandler with enabled := false } },
          [])
    | none =>
      ({ st with
          extendedMemberSupport := false,
          sourceDateHandler := { st.sourceDateHandler with enabled := false } },
        [])
  | none =>
    ({ st with
        extendedMemberSupport := false,
        sourceDateHandler := { st.sourceDateHandler with enabled := false } },
      [])

/-- The failures an operation can raise: FileSystemError.FileNotFound on
a Uri, or a generic Error with a message (used for the not-connected and
read failures). -/
inductive FsError where
  | FileNotFound (uri : Uri) : FsError
  | Error (message : String) : FsError
deriving DecidableEq, Repr

/-- The message of the generic not-connected error. -/
def notConnectedMessage : String := "Not connected to IBM i"

/-- The generic error thrown when no live session exists. -/
def notConnectedError : FsError := FsError.Error notConnectedMessage

/-- The message of the read failure naming the identifier. -/
def readFailedMessage (uri : Uri) : String :=
  "Could not read " ++ uri.render ++ "; check IBM i connection."

/-- QSysFS.stat line 92: file when the path split on "/" has more than 3
pieces, directory otherwise. -/
def statType (path : String) : FileType :=
  if (jsSplit '/' path).length > 3 then FileType.File else FileType.Directory

/-- The outcome of a stat call: the result or error, the cache after the
call, and the gateway invocations performed. -/
structure StatOutcome where
  result : Except FsError FileStat
  cache : FileStatCache
  calls : List GatewayCall
deriving Repr

/-- QSysFS.stat: classify by path depth; on a cache miss with a content
API, ask the gateway for attributes and either fill the cache or store
the null negative marker and fail with FileNotFound; on a miss without a
content API, synthesize and cache zeroed metadata; on a cached null,
fail with FileNotFound; on a cached stat, return it with no gateway
call. -/
def stat (env : Env) (cache : FileStatCache) (uri : Uri) : StatOutcome :=
  let path := uri.path
  let type := statType path
  match cache.get path with
  | none =>
    match env.content with
    | some content =>
      match content.getAttributes path with
      | some attributes =>
        let currentStat : FileStat :=
          { ctime := attributes.createTime
            mtime := attributes.modifyTime
            size := attributes.dataSize
            type := type
            permissions := getFilePermission env.config uri }
        { result := Except.ok currentStat
          cache := cache.set path (some currentStat)
          calls := [GatewayCall.attrQuery path] }
      | none =>
        { result := Except.error (FsError.FileNotFound uri)
          cache := cache.set path none
          calls := [GatewayCall.attrQuery path] }
    | none =>
      let currentStat : FileStat :=
        { ctime := 0
          mtime := 0
          size := 0
          type := type
          permissions := getFilePermission env.config uri }
      { result := Except.ok currentStat
        cache := cache.set path (some currentStat)
        calls := [] }
  | some none =>
    { result := Except.error (FsError.FileNotFound uri)
      cache := cache
      calls := [] }
  | some (some s) =>
    { result := Except.ok s
      cache := cache
      calls := [] }

/-- The outcome of a read: the content (as the UTF-8 string the returned
bytes encode) or an error, and the gateway invocations performed. -/
structure ReadOutcome where
  result : Except FsError String
  calls : List GatewayCall
deriving Repr

/-- The connected branch of QSysFS.readFile: download through the
extended (with-dates) overlay when extendedMemberSupport holds,
otherwise through the plain gateway function; undefined content fails
with an error naming the identifier. -/
def readFileConnected (st : FsState) (api : ContentApi) (uri : Uri) : ReadOutcome :=
  if st.extendedMemberSupport then
    match api.downloadMemberContentWithDates uri.path with
    | some memberContent =>
      { result := Except.ok memberContent
        calls := [GatewayCall.downloadWithDates uri.path] }
    | none =>
      { result := Except.error (FsError.Error (readFailedMessage uri))
        calls := [GatewayCall.downloadWithDates uri.path] }
  else
    match api.downloadMemberContent uri.path with
    | some memberContent =>
      { result := Except.ok memberContent
        calls := [GatewayCall.download uri.path] }
    | none =>
      { result := Except.error (FsError.Error (readFailedMessage uri))
        calls := [GatewayCall.download uri.path] }

/-- QSysFS.readFile with the single recursive retry unrolled: when a
connection and content API exist, read; otherwise execute the
connectToPrevious command (modelled by the environment envRetry observed
by the retry) and read again with the retrying flag set, so that a
second missing session throws the not-connected error. -/
def readFile (st : FsState) (env envRetry : Env) (uri : Uri) : ReadOutcome :=
  match env.connection, env.content with
  | some _, some api => readFileConnected st api uri
  | _, _ =>
    match envRetry.connection, envRetry.content with
    | some _, some api =>
      let o := readFileConnected st api uri
      { result := o.result, calls := GatewayCall.reconnect :: o.calls }
    | _, _ =>
      { result := Except.error notConnectedError
        calls := [GatewayCall.reconnect] }

/-- The create and overwrite flags vscode passes to writeFile. -/
structure WriteOptions where
  create : Bool
  overwrite : Bool
deriving DecidableEq, Repr

/-- The outcome of a write: unit or an error, the cache after the call,
and the gateway invocations performed. -/
structure WriteOutcome where
  result : Except FsError Unit
  cache : FileStatCache
  calls : List GatewayCall
deriving Repr

/-- QSysFS.writeFile: clear the stat-cache entry for the uri first, then
upload through the extended overlay or the plain gateway function when a
session exists, else throw the not-connected error. The options record
is received but never read. -/
def writeFile (st : FsState) (env : Env) (uri : Uri) (content : String)
    (options : WriteOptions) : WriteOutcome :=
  let cache := st.statCache.clearPath uri.path
  match env.connection, env.content with
  | some _, some _ =>
    if st.extendedMemberSupport then
      { result := Except.ok ()
        cache := cache
        calls := [GatewayCall.uploadWithDates uri.path content] }
    else
      { result := Except.ok ()
        cache := cache
        calls := [GatewayCall.upload uri.path content] }
  | _, _ =>
    { result := Except.error notConnectedError
      cache := cache
      calls := [] }

/-- The overwrite flag vscode passes to rename. -/
structure RenameOptions where
  overwrite : Bool
deriving DecidableEq, Repr

/-- QSysFS.rename: log and clear the stat-cache entries of both paths;
nothing else happens and the gateway is never invoked. -/
def rename (st : FsState) (oldUri newUri : Uri) (options : RenameOptions) :
    FsState × List GatewayCall :=
  ({ st with statCache := (st.statCache.clearPath oldUri.path).clearPath newUri.path },
    [])


/-- The placeholder metadata synthesized by QSysFS.stat when no content
API is available: zeroed times and size, depth-classified type, computed
permission flag. -/
def placeholderStat (env : Env) (uri : Uri) : FileStat :=
  { ctime := 0
    mtime := 0
    size := 0
    type := statType uri.path
    permissions := getFilePermission env.config uri }

/-- A configuration that does not request source dates. -/
def cfgPlain : Config :=
  { readOnlyMode := false, enableSourceDates := false, sourceDateMode := SourceDateMode.edit }

/-- A configuration that requests source dates. -/
def cfgSourceDates : Config :=
  { readOnlyMode := false, enableSourceDates := true, sourceDateMode := SourceDateMode.edit }

/-- A connection requesting source dates whose session has no SQL
runner. -/
def connNoSql : Connection :=
  { config := some cfgSourceDates, sqlRunnerAvailable := false, encodingInvalid := false }

/-- A connection with an SQL runner and a plain configuration. -/
def connSql : Connection :=
  { config := some cfgPlain, sqlRunnerAvailable := true, encodingInvalid := false }

/-- A gateway that knows nothing: every query returns nothing. -/
def apiEmpty : ContentApi :=
  { getAttributes := fun _ => none
    downloadMemberContent := fun _ => none
    downloadMemberContentWithDates := fun _ => none }

/-- The environment with no live session at all. -/
def envNoSession : Env := { connection := none, content := none, config := none }

/-- A connected environment whose configuration requests source dates
but whose session has no SQL runner. -/
def envNoSql : Env :=
  { connection := some connNoSql, content := some apiEmpty, config := some cfgSourceDates }

/-- A connected environment over the empty gateway. -/
def envEmptyGateway : Env :=
  { connection := some connSql, content := some apiEmpty, config := some cfgPlain }

/-- The initial provider state: empty cache, no extended member support,
handler disabled. -/
def st0 : FsState :=
  { statCache := FileStatCache.empty
    extendedMemberSupport := false
    sourceDateHandler := { enabled := false, mode := SourceDateMode.edit } }

/-- The two-segment member path of the spec scenario. -/
def uriDir : Uri := { scheme := "member", path := "/MYLIB/MYFILE", query := "" }

/-- The member path of the spec scenario. -/
def uriMember : Uri :=
  { scheme := "member", path := "/MYLIB/MYFILE/MEMBER1.RPGLE", query := "" }

/-- Looking up a path just cleared finds nothing. -/
theorem FileStatCache.get_clearPath_self (c : FileStatCache) (p : String) :
    (c.clearPath p).get p = none := by
  show (c.entries.filter fun e => e.1 ≠ p).lookup p = none
  induction c.entries with
  | nil => rfl
  | cons e es ih =>
    rw [List.filter_cons]
    by_cases h : e.1 = p
    · rw [if_neg (by simp [h])]
      exact ih
    · rw [if_pos (by simp [h]), List.lookup_cons]
      rw [beq_false_of_ne (Ne.symm h)]
      exact ih

/-- Clearing one path leaves every other path's entry untouched. -/
theorem FileStatCache.get_clearPath_ne (c : FileStatCache) (p q : String)
    (h : p ≠ q) : (c.clearPath q).get p = c.get p := by
  show (c.entries.filter fun e => e.1 ≠ q).lookup p = c.entries.lookup p
  induction c.entries with
  | nil => rfl
  | cons e es ih =>
    rw [List.filter_cons]
    by_cases he : e.1 = q
    · rw [if_neg (by simp [he])]
      rw [List.lookup_cons, beq_false_of_ne (he ▸ h)]
      exact ih
    · rw [if_pos (by simp [he]), List.lookup_cons, List.lookup_cons]
      cases hpe : p == e.1 with
      | true => rfl
      | false => exact ih

/-- Looking up a path just stored finds the stored value. -/
theorem FileStatCache.get_set_self (c : FileStatCache) (p : String)
    (v : Option FileStat) : (c.set p v).get p = some v := by
  show ((p, v) :: c.entries).lookup p = some v
  rw [List.lookup_cons, beq_self_eq_true]

/-- Storing under one path leaves every other path's entry untouched. -/
theorem FileStatCache.get_set_ne (c : FileStatCache) (p q : String)
    (v : Option FileStat) (h : p ≠ q) : (c.set q v).get p = c.get p := by
  show ((q, v) :: c.entries).lookup p = c.entries.lookup p
  rw [List.lookup_cons, beq_false_of_ne h]

/-- C1: the file-vs-directory classification of stat is determined only
by path depth: a path splitting into more than 3 pieces is a file, any
other path a directory, independent of remote existence; on a cache
miss every metadata stat returns carries exactly that depth-derived
type; in particular /MYLIB/MYFILE classifies as directory and
/MYLIB/MYFILE/MEMBER1.RPGLE as file. -/
theorem stat_classifies_by_depth :
    (∀ p : String, statType p = FileType.File ↔ (jsSplit '/' p).length > 3) ∧
    (∀ (env : Env) (cache : FileStatCache) (uri : Uri) (r : FileStat),
       cache.get uri.path = none →
       (stat env cache uri).result = Except.ok r →
       r.type = statType uri.path) ∧
    statType uriDir.path = FileType.Directory ∧
    statType uriMember.path = FileType.File := by
  refine ⟨?_, ?_, by decide, by decide⟩
  · intro p
    unfold statType
    by_cases h : (jsSplit '/' p).length > 3 <;> simp [h]
  · intro env cache uri r hmiss hok
    cases hc : env.content with
    | none =>
      simp [stat, hmiss, hc] at hok
      rw [← hok]
    | some api =>
      cases ha : api.getAttributes uri.path with
      | none => simp [stat, hmiss, hc, ha] at hok
      | some attrs =>
        simp [stat, hmiss, hc, ha] at hok
        rw [← hok]

/-- C1 witness: the classification consequence of stat at the concrete
no-session stat of /MYLIB/MYFILE. -/
theorem stat_classifies_by_depth_witness :
    FileStatCache.empty.get uriDir.path = none ∧
    (stat envNoSession FileStatCache.empty uriDir).result =
      Except.ok (placeholderStat envNoSession uriDir) ∧
    (placeholderStat envNoSession uriDir).type = statType uriDir.path :=
  ⟨rfl, rfl,
    stat_classifies_by_depth.2.1 envNoSession FileStatCache.empty uriDir
      (placeholderStat envNoSession uriDir) rfl rfl⟩

/-- C2: on a cache miss with a live session, when the gateway reports no
attributes stat stores the negative marker and fails with FileNotFound
after exactly one attribute query; a second stat on the resulting cache
(under any environment, with no intervening clear) fails with
FileNotFound again while issuing no gateway call at all. -/
theorem stat_negative_cache (env : Env) (api : ContentApi) (cache : FileStatCache)
    (uri : Uri) (hc : env.content = some api)
    (ha : api.getAttributes uri.path = none)
    (hmiss : cache.get uri.path = none) :
    (stat env cache uri).result = Except.error (FsError.FileNotFound uri) ∧
    (stat env cache uri).calls = [GatewayCall.attrQuery uri.path] ∧
    (stat env cache uri).cache.get uri.path = some none ∧
    (∀ env2 : Env,
      (stat env2 (stat env cache uri).cache uri).result =
        Except.error (FsError.FileNotFound uri) ∧
      (stat env2 (stat env cache uri).cache uri).calls = []) := by
  have h1 : stat env cache uri =
      { result := Except.error (FsError.FileNotFound uri)
        cache := cache.set uri.path none
        calls := [GatewayCall.attrQuery uri.path] } := by
    simp [stat, hmiss, hc, ha]
  refine ⟨by rw [h1], by rw [h1], ?_, ?_⟩
  · rw [h1]
    exact cache.get_set_self uri.path none
  · intro env2
    have hhit : (cache.set uri.path none).get uri.path = some none :=
      cache.get_set_self uri.path none
    refine ⟨?_, ?_⟩ <;> rw [h1] <;> simp [stat, hhit]

/-- C2 witness: the negative-cache behaviour at the concrete empty
gateway on the member path. -/
theorem stat_negative_cache_witness :
    (stat envEmptyGateway FileStatCache.empty uriMember).result =
      Except.error (FsError.FileNotFound uriMember) ∧
    (stat envEmptyGateway FileStatCache.empty uriMember).calls =
      [GatewayCall.attrQuery uriMember.path] ∧
    (stat envEmptyGateway FileStatCache.empty uriMember).cache.get uriMember.path =
      some none ∧
    (∀ env2 : Env,
      (stat env2 (stat envEmptyGateway FileStatCache.empty uriMember).cache uriMember).result =
        Except.error (FsError.FileNotFound uriMember) ∧
      (stat env2 (stat envEmptyGateway FileStatCache.empty uriMember).cache uriMember).calls =
        []) :=
  stat_negative_cache envEmptyGateway apiEmpty FileStatCache.empty uriMember rfl rfl rfl

/-- C3: writeFile clears the stat-cache entry of the written path before
attempting the remote write: whatever the session state and outcome, no
pre-write cache entry for the path survives (so a later stat on it
starts from a miss), every other path's entry is untouched, the write
fails with the not-connected error exactly when no live session exists,
and succeeds otherwise. -/
theorem writeFile_invalidates_first (st : FsState) (env : Env) (uri : Uri)
    (content : String) (options : WriteOptions) :
    (writeFile st env uri content options).cache.get uri.path = none ∧
    (∀ p, p ≠ uri.path →
      (writeFile st env uri content options).cache.get p = st.statCache.get p) ∧
    ((env.connection = none ∨ env.content = none) →
      (writeFile st env uri content options).result = Except.error notConnectedError) ∧
    (∀ conn api, env.connection = some conn → env.content = some api →
      (writeFile st env uri content options).result = Except.ok ()) := by
  have hcache : (writeFile st env uri content options).cache =
      st.statCache.clearPath uri.path := by
    unfold writeFile
    cases env.connection <;> cases env.content <;>
      simp <;> by_cases h : st.extendedMemberSupport <;> simp [h]
  refine ⟨?_, ?_, ?_, ?_⟩
  · rw [hcache]
    exact st.statCache.get_clearPath_self uri.path
  · intro p hp
    rw [hcache]
    exact st.statCache.get_clearPath_ne p uri.path hp
  · intro h
    unfold writeFile
    rcases h with h | h <;> rw [h] <;> first
      | rfl
      | (cases env.connection <;> rfl)
      | (cases env.content <;> rfl)
  · intro conn api hconn hapi
    unfold writeFile
    rw [hconn, hapi]
    by_cases h : st.extendedMemberSupport <;> simp [h]

/-- C3 witness: writing the member path with no session clears its cache
entry, leaves other entries alone, and fails with the not-connected
error. -/
theorem writeFile_invalidates_first_witness :
    (writeFile st0 envNoSession uriMember "X" ⟨false, false⟩).cache.get uriMember.path =
      none ∧
    (writeFile st0 envNoSession uriMember "X" ⟨false, false⟩).cache.get uriDir.path =
      st0.statCache.get uriDir.path ∧
    (writeFile st0 envNoSession uriMember "X" ⟨false, false⟩).result =
      Except.error notConnectedError :=
  ⟨(writeFile_invalidates_first st0 envNoSession uriMember "X" ⟨false, false⟩).1,
    (writeFile_invalidates_first st0 envNoSession uriMember "X" ⟨false, false⟩).2.1
      uriDir.path (by decide),
    (writeFile_invalidates_first st0 envNoSession uriMember "X" ⟨false, false⟩).2.2.1
      (Or.inl rfl)⟩

/-- C4: readFile performs at most one reconnection; with no session it
reconnects once and retries exactly once, a still-missing session after
the retry being fatal with the not-connected error; when the retry finds
a session the outcome is that of the single retried read after the one
reconnection; with a live session whose gateway returns no content the
read fails with the error naming the identifier; and no other operation
(writeFile, stat, rename) ever reconnects. -/
theorem readFile_retry_policy (st : FsState) (env envRetry : Env) (uri : Uri)
    (cache : FileStatCache) (content : String) (wopts : WriteOptions)
    (ropts : RenameOptions) (uri2 : Uri) :
    (readFile st env envRetry uri).calls.count GatewayCall.reconnect ≤ 1 ∧
    ((env.connection = none ∨ env.content = none) →
      (envRetry.connection = none ∨ envRetry.content = none) →
      (readFile st env envRetry uri).result = Except.error notConnectedError ∧
      (readFile st env envRetry uri).calls = [GatewayCall.reconnect]) ∧
    (∀ conn api, (env.connection = none ∨ env.content = none) →
      envRetry.connection = some conn → envRetry.content = some api →
      (readFile st env envRetry uri).result = (readFileConnected st api uri).result ∧
      (readFile st env envRetry uri).calls =
        GatewayCall.reconnect :: (readFileConnected st api uri).calls) ∧
    (∀ conn api, env.connection = some conn → env.content = some api →
      (if st.extendedMemberSupport then api.downloadMemberContentWithDates uri.path
        else api.downloadMemberContent uri.path) = none →
      (readFile st env envRetry uri).result =
        Except.error (FsError.Error (readFailedMessage uri))) ∧
    ((writeFile st env uri content wopts).calls.count GatewayCall.reconnect = 0 ∧
      (stat env cache uri).calls.count GatewayCall.reconnect = 0 ∧
      (rename st uri uri2 ropts).2.count GatewayCall.reconnect = 0) := by
  have hconnCount : ∀ api, (readFileConnected st api uri).calls.count
      GatewayCall.reconnect = 0 := by
    intro api
    unfold readFileConnected
    by_cases h : st.extendedMemberSupport <;> simp [h] <;>
      rcases api.downloadMemberContentWithDates uri.path with _ | c <;>
      rcases api.downloadMemberContent uri.path with _ | c <;> simp
  refine ⟨?_, ?_, ?_, ?_, ?_, ?_, ?_⟩
  · unfold readFile
    rcases hc : env.connection with _ | conn <;> rcases ha : env.content with _ | api <;>
      rcases hc2 : envRetry.connection with _ | conn2 <;>
      rcases ha2 : envRetry.content with _ | api2 <;>
      simp [hconnCount]
  · intro h h2
    unfold readFile
    rcases hc : env.connection with _ | c <;> rcases ha : env.content with _ | a <;>
      rcases hc2 : envRetry.connection with _ | c2 <;>
      rcases ha2 : envRetry.content with _ | a2 <;>
      simp_all
  · intro conn api h hc2 ha2
    unfold readFile
    rcases hc : env.connection with _ | c <;> rcases ha : env.content with _ | a <;>
      simp_all
  · intro conn api hc ha hdl
    unfold readFile
    rw [hc, ha]
    unfold readFileConnected
    by_cases h : st.extendedMemberSupport <;> simp [h] at hdl ⊢ <;> simp [hdl]
  · unfold writeFile
    rcases env.connection with _ | c <;> rcases env.content with _ | a <;>
      by_cases h : st.extendedMemberSupport <;> simp [h]
  · unfold stat
    rcases hg : cache.get uri.path with _ | st2
    · rcases env.content with _ | a
      · simp [hg]
      · rcases ha : a.getAttributes uri.path with _ | attrs <;> simp [hg, ha]
    · rcases st2 with _ | s <;> simp [hg]
  · simp [rename]

/-- C4 witness: with no session before and after the reconnection
attempt, the read fails with the not-connected error after exactly one
reconnection. -/
theorem readFile_retry_policy_witness :
    (readFile st0 envNoSession envNoSession uriMember).result =
      Except.error notConnectedError ∧
    (readFile st0 envNoSession envNoSession uriMember).calls =
      [GatewayCall.reconnect] :=
  (readFile_retry_policy st0 envNoSession envNoSession uriMember
      FileStatCache.empty "X" ⟨false, false⟩ ⟨false⟩ uriDir).2.1
    (Or.inl rfl) (Or.inl rfl)

/-- C5 counterexample: at the concrete connected environment requesting
source dates over a session without an SQL runner, the single notice the
recomputation raises is error-level (showErrorMessage), not
warning-level, refuting the claim that a warning-level notice is raised
on this transition attempt. -/
theorem updateMemberSupport_notice_is_error_level :
    (updateMemberSupport envNoSql st0).2.map Notice.severity = [Severity.error] ∧
    Severity.error ≠ Severity.warning := by
  constructor
  · rfl
  · decide

/-- C5 amended: when the recomputation runs with a connection whose
configuration requests source dates but whose session has no SQL
runner, the overlay stays disabled (extendedMemberSupport false, the
handler disabled), exactly one user-visible error-level notice is
raised per transition attempt, and with the resulting state the
with-dates transfer functions are never invoked: readFile only ever
calls the plain download and writeFile only the plain upload. -/
theorem updateMemberSupport_sql_unavailable (st : FsState) (env : Env)
    (conn : Connection) (cfg : Config)
    (hc : env.connection = some conn) (hcfg : conn.config = some cfg)
    (hsd : cfg.enableSourceDates = true) (hsql : conn.sqlRunnerAvailable = false) :
    (updateMemberSupport env st).1.extendedMemberSupport = false ∧
    (updateMemberSupport env st).1.sourceDateHandler.enabled = false ∧
    (updateMemberSupport env st).2 = [⟨Severity.error, sqlUnavailableMessage⟩] ∧
    (∀ (env2 envRetry : Env) (uri : Uri) (p : String),
      GatewayCall.downloadWithDates p ∉
        (readFile (updateMemberSupport env st).1 env2 envRetry uri).calls) ∧
    (∀ (env2 : Env) (uri : Uri) (content : String) (opts : WriteOptions)
        (p c : String),
      GatewayCall.uploadWithDates p c ∉
        (writeFile (updateMemberSupport env st).1 env2 uri content opts).calls) := by
  have hst : (updateMemberSupport env st).1.extendedMemberSupport = false ∧
      (updateMemberSupport env st).1.sourceDateHandler.enabled = false ∧
      (updateMemberSupport env st).2 = [⟨Severity.error, sqlUnavailableMessage⟩] := by
    simp [updateMemberSupport, hc, hcfg, hsd, hsql]
  have hplainRead : ∀ (stx : FsState) (api : ContentApi) (uri : Uri) (p : String),
      stx.extendedMemberSupport = false →
      GatewayCall.downloadWithDates p ∉ (readFileConnected stx api uri).calls := by
    intro stx api uri p hflag
    unfold readFileConnected
    rw [hflag]
    rcases api.downloadMemberContent uri.path with _ | c <;> simp
  refine ⟨hst.1, hst.2.1, hst.2.2, ?_, ?_⟩
  · intro env2 envRetry uri p
    unfold readFile
    rcases env2.connection with _ | c <;> rcases env2.content with _ | a <;>
      rcases envRetry.connection with _ | c2 <;>
      rcases envRetry.content with _ | a2 <;>
      simp_all [hplainRead _ _ uri p hst.1]
  · intro env2 uri content opts p c
    unfold writeFile
    rcases env2.connection with _ | cn <;> rcases env2.content with _ | a <;>
      simp_all

/-- C5 witness: the amended behaviour at the concrete no-SQL
environment. -/
theorem updateMemberSupport_sql_unavailable_witness :
    (updateMemberSupport envNoSql st0).1.extendedMemberSupport = false ∧
    (updateMemberSupport envNoSql st0).2 = [⟨Severity.error, sqlUnavailableMessage⟩] ∧
    GatewayCall.downloadWithDates uriMember.path ∉
      (readFile (updateMemberSupport envNoSql st0).1 envNoSql envNoSql uriMember).calls :=
  ⟨(updateMemberSupport_sql_unavailable st0 envNoSql connNoSql cfgSourceDates
      rfl rfl rfl rfl).1,
    (updateMemberSupport_sql_unavailable st0 envNoSql connNoSql cfgSourceDates
      rfl rfl rfl rfl).2.2.1,
    (updateMemberSupport_sql_unavailable st0 envNoSql connNoSql cfgSourceDates
      rfl rfl rfl rfl).2.2.2.1 envNoSql envNoSql uriMember uriMember.path⟩

/-- Helper: the query of an encoded Uri is the serialized options,
whichever scheme branch getUriFromPath takes. -/
theorem getUriFromPath_query (path : String) (options : Option QsysFsOptions) :
    (getUriFromPath path options).query = stringifyOptions options := by
  unfold getUriFromPath
  by_cases h : startsWithSlash path <;> simp [h]

/-- C6: the codec round-trips the options record: decoding the
identifier produced by encoding any path with a readonly boolean yields
that same boolean back, and decoding any identifier whose query string
does not carry exactly one readonly parameter bound to "true" (so in
particular any malformed or absent readonly value) yields readonly
false, as does an identifier encoded with no options at all. -/
theorem codec_roundtrip_options :
    (∀ (path : String) (b : Bool),
      parseFSOptions (getUriFromPath path (some ⟨some b⟩)) = ⟨some b⟩) ∧
    (∀ u : Uri, readonlyValues u.query ≠ ["true"] → parseFSOptions u = ⟨some false⟩) ∧
    (∀ path : String, parseFSOptions (getUriFromPath path none) = ⟨some false⟩) := by
  refine ⟨?_, ?_, ?_⟩
  · intro path b
    unfold parseFSOptions
    rw [getUriFromPath_query]
    cases b <;> rfl
  · intro u h
    unfold parseFSOptions
    rw [decide_eq_false h]
  · intro path
    unfold parseFSOptions
    rw [getUriFromPath_query]
    rfl

/-- C6 witness: the round trip at the concrete member path with
readonly true, and the malformed-query fallback to false. -/
theorem codec_roundtrip_options_witness :
    parseFSOptions (getUriFromPath "MYLIB/MYFILE/MEMBER1.RPGLE" (some ⟨some true⟩)) =
      ⟨some true⟩ ∧
    parseFSOptions ⟨"member", "/MYLIB/MYFILE", "readonly=yes"⟩ = ⟨some false⟩ :=
  ⟨codec_roundtrip_options.1 "MYLIB/MYFILE/MEMBER1.RPGLE" true,
    codec_roundtrip_options.2.1 ⟨"member", "/MYLIB/MYFILE", "readonly=yes"⟩ (by decide)⟩

/-- C7: rename clears the stat-cache entries of both the old and the new
path and changes nothing else: other cache entries, the support flag and
the handler state are untouched, no gateway call at all is performed (in
particular no remote rename), and a subsequent stat on either path under
a live session issues a fresh attribute query. -/
theorem rename_clears_both_paths_only (st : FsState) (o n : Uri)
    (opts : RenameOptions) :
    (rename st o n opts).1.statCache.get o.path = none ∧
    (rename st o n opts).1.statCache.get n.path = none ∧
    (∀ p, p ≠ o.path → p ≠ n.path →
      (rename st o n opts).1.statCache.get p = st.statCache.get p) ∧
    (rename st o n opts).1.extendedMemberSupport = st.extendedMemberSupport ∧
    (rename st o n opts).1.sourceDateHandler = st.sourceDateHandler ∧
    (rename st o n opts).2 = [] ∧
    (∀ (env : Env) (api : ContentApi), env.content = some api →
      (stat env (rename st o n opts).1.statCache o).calls =
        [GatewayCall.attrQuery o.path] ∧
      (stat env (rename st o n opts).1.statCache n).calls =
        [GatewayCall.attrQuery n.path]) := by
  have hgetO : (rename st o n opts).1.statCache.get o.path = none := by
    show ((st.statCache.clearPath o.path).clearPath n.path).get o.path = none
    by_cases h : o.path = n.path
    · rw [h]
      exact (st.statCache.clearPath n.path).get_clearPath_self n.path
    · rw [(st.statCache.clearPath o.path).get_clearPath_ne o.path n.path h]
      exact st.statCache.get_clearPath_self o.path
  have hgetN : (rename st o n opts).1.statCache.get n.path = none :=
    (st.statCache.clearPath o.path).get_clearPath_self n.path
  refine ⟨hgetO, hgetN, ?_, rfl, rfl, rfl, ?_⟩
  · intro p hpo hpn
    show ((st.statCache.clearPath o.path).clearPath n.path).get p = _
    rw [(st.statCache.clearPath o.path).get_clearPath_ne p n.path hpn]
    exact st.statCache.get_clearPath_ne p o.path hpo
  · intro env api hc
    constructor
    · rcases ha : api.getAttributes o.path with _ | attrs <;>
        simp [stat, hgetO, hc, ha]
    · rcases ha : api.getAttributes n.path with _ | attrs <;>
        simp [stat, hgetN, hc, ha]

/-- C7 witness: renaming the member path onto the directory path in the
initial state clears both entries, performs no gateway call, and a
subsequent stat over the empty gateway issues a fresh attribute query
for each path. -/
theorem rename_clears_both_paths_only_witness :
    (rename st0 uriMember uriDir ⟨true⟩).1.statCache.get uriMember.path = none ∧
    (rename st0 uriMember uriDir ⟨true⟩).2 = [] ∧
    (stat envEmptyGateway (rename st0 uriMember uriDir ⟨true⟩).1.statCache uriMember).calls =
      [GatewayCall.attrQuery uriMember.path] :=
  ⟨(rename_clears_both_paths_only st0 uriMember uriDir ⟨true⟩).1,
    (rename_clears_both_paths_only st0 uriMember uriDir ⟨true⟩).2.2.2.2.2.1,
    ((rename_clears_both_paths_only st0 uriMember uriDir ⟨true⟩).2.2.2.2.2.2
      envEmptyGateway apiEmpty rfl).1⟩

/-- C8: on a cache miss with no content API, stat does not fail: it
returns the placeholder metadata with zeroed ctime, mtime and size,
the depth-classified type and the computed permission flag; and that
permission flag is Readonly exactly when the global configuration is in
read-only mode or the identifier carries the readonly option. -/
theorem stat_no_session_placeholder (env : Env) (cache : FileStatCache) (uri : Uri)
    (hns : env.content = none) (hmiss : cache.get uri.path = none) :
    (stat env cache uri).result = Except.ok (placeholderStat env uri) ∧
    (placeholderStat env uri).ctime = 0 ∧
    (placeholderStat env uri).mtime = 0 ∧
    (placeholderStat env uri).size = 0 ∧
    (placeholderStat env uri).type = statType uri.path ∧
    (∀ (cfg : Option Config) (u : Uri),
      getFilePermission cfg u = some FilePermission.Readonly ↔
        ((cfg.map Config.readOnlyMode).getD false = true ∨
          readonlyValues u.query = ["true"])) := by
  refine ⟨?_, rfl, rfl, rfl, rfl, ?_⟩
  · simp [stat, hmiss, hns, placeholderStat]
  · intro cfg u
    unfold getFilePermission parseFSOptions
    by_cases hg : (cfg.map Config.readOnlyMode).getD false = true
    · simp [hg]
    · by_cases hr : readonlyValues u.query = ["true"] <;> simp [hg, hr]

/-- C8 witness: the placeholder behaviour at the concrete no-session
environment on the member path. -/
theorem stat_no_session_placeholder_witness :
    (stat envNoSession FileStatCache.empty uriMember).result =
      Except.ok (placeholderStat envNoSession uriMember) ∧
    (placeholderStat envNoSession uriMember).size = 0 ∧
    (placeholderStat envNoSession uriMember).type = statType uriMember.path :=
  ⟨(stat_no_session_placeholder envNoSession FileStatCache.empty uriMember rfl rfl).1,
    (stat_no_session_placeholder envNoSession FileStatCache.empty uriMember rfl rfl).2.2.2.1,
    (stat_no_session_placeholder envNoSession FileStatCache.empty uriMember rfl rfl).2.2.2.2.1⟩

/-- C9: the zeroed placeholder a no-session stat synthesizes is stored
in the cache under the path, and every subsequent stat on that path with
no intervening clear returns the very same placeholder while issuing no
gateway call, under any later environment — even one with a live
session. -/
theorem stat_placeholder_is_cached (env1 : Env) (cache : FileStatCache) (uri : Uri)
    (hns : env1.content = none) (hmiss : cache.get uri.path = none) :
    (stat env1 cache uri).cache.get uri.path =
      some (some (placeholderStat env1 uri)) ∧
    (∀ env2 : Env,
      (stat env2 (stat env1 cache uri).cache uri).result =
        Except.ok (placeholderStat env1 uri) ∧
      (stat env2 (stat env1 cache uri).cache uri).calls = []) := by
  have h1 : (stat env1 cache uri).cache =
      cache.set uri.path (some (placeholderStat env1 uri)) := by
    simp [stat, hmiss, hns, placeholderStat]
  have hhit : (stat env1 cache uri).cache.get uri.path =
      some (some (placeholderStat env1 uri)) := by
    rw [h1]
    exact cache.get_set_self uri.path (some (placeholderStat env1 uri))
  refine ⟨hhit, ?_⟩
  intro env2
  have hhit2 : (cache.set uri.path (some (placeholderStat env1 uri))).get uri.path =
      some (some (placeholderStat env1 uri)) :=
    cache.get_set_self uri.path (some (placeholderStat env1 uri))
  refine ⟨?_, ?_⟩ <;> rw [h1] <;> simp [stat, hhit2]

/-- C9 witness: the cached placeholder at the concrete no-session
environment, re-read under the live empty-gateway environment with no
gateway call. -/
theorem stat_placeholder_is_cached_witness :
    (stat envNoSession FileStatCache.empty uriMember).cache.get uriMember.path =
      some (some (placeholderStat envNoSession uriMember)) ∧
    (stat envEmptyGateway (stat envNoSession FileStatCache.empty uriMember).cache uriMember).result =
      Except.ok (placeholderStat envNoSession uriMember) ∧
    (stat envEmptyGateway (stat envNoSession FileStatCache.empty uriMember).cache uriMember).calls =
      [] :=
  ⟨(stat_placeholder_is_cached envNoSession FileStatCache.empty uriMember rfl rfl).1,
    ((stat_placeholder_is_cached envNoSession FileStatCache.empty uriMember rfl rfl).2
      envEmptyGateway).1,
    ((stat_placeholder_is_cached envNoSession FileStatCache.empty uriMember rfl rfl).2
      envEmptyGateway).2⟩

/-- C10: writeFile never reads its options record: two runs differing
only in the create and overwrite flags produce the identical outcome —
the same result, the same cache state and the same gateway calls. -/
theorem writeFile_ignores_options (st : FsState) (env : Env) (uri : Uri)
    (content : String) (o1 o2 : WriteOptions) :
    writeFile st env uri content o1 = writeFile st env uri content o2 := rfl

end QSysFs
